import Mathlib

set_option maxHeartbeats 1000000

namespace VulkanSandbox

/- Shallow embedding of the frame-presentation core of `src/main.rs` and
`src/vulkan/initialization.rs`.

The per-frame tick is the `Event::RedrawEventsCleared` arm of the closure
passed to `event_loop.run` in `main`:
cleanup, conditional swapchain rebuild, acquire, encode, submit and present.
GPU-side / windowing-side outcomes that the code only pattern-matches on
(the result of `recreate_with_dimensions`, of `acquire_next_image`, of
`then_signal_fence_and_flush`, and the `min_image_extent` capability query)
are inputs of the tick. Rust panics (`panic!`, `.unwrap()` on `Err`/`None`,
out-of-bounds indexing) are modelled as `none`. -/

/-- The `previous_frame_end : Option Box dyn GpuFuture` slot of `main`:
either `sync::now(device)` (an already-satisfied token, its startup and
error-recovery value) or the fence future produced by submission number
`subId`. Submission attempts are numbered globally in order. -/
inductive Token where
  | satisfied : Token
  | pending : Nat → Token
  deriving DecidableEq

/-- One swapchain image, tagged with the generation (rebuild count) of the
swapchain that owns it. Modelled from the spec: a swapchain image carries the
dimensions of the swapchain it belongs to (`SwapchainImage::dimensions` in
vulkano, outside this repository); the generation marker is the spec's
"generation marker incremented on every rebuild". -/
structure SwapchainImage where
  gen : Nat
  width : Nat
  height : Nat
  deriving DecidableEq

/-- A framebuffer built by `window_size_dependent_setup`: it wraps exactly one
swapchain image as its color attachment (`Framebuffer::start(render_pass).add(image)`). -/
structure Framebuffer where
  image : SwapchainImage
  deriving DecidableEq

/-- The `Viewport` value built in `window_size_dependent_setup`:
`origin: [0.0, 0.0]`, `dimensions: [w as f32, h as f32]`,
`depth_range: 0.0..1.0`. The `f32` literals 0.0 and 1.0 and the exact casts
of `u32` dimensions are represented by naturals. -/
structure Viewport where
  originX : Nat
  originY : Nat
  width : Nat
  height : Nat
  depthLo : Nat
  depthHi : Nat
  deriving DecidableEq

/-- The swapchain as the scheduler sees it: generation marker, current
dimensions, number of images. -/
structure SwapchainState where
  gen : Nat
  width : Nat
  height : Nat
  num_images : Nat
  deriving DecidableEq

/-- Modelled from the spec: the ordered image sequence of a swapchain, one
handle per image, each sized to the swapchain's dimensions and belonging to
its generation (vulkano returns this list from `Swapchain::new` /
`recreate_with_dimensions`, outside this repository). -/
def SwapchainState.images (sc : SwapchainState) : List SwapchainImage :=
  (List.range sc.num_images).map (fun _ => ⟨sc.gen, sc.width, sc.height⟩)

/-- `window_size_dependent_setup` from `src/vulkan/initialization.rs`:
reads `images[0].dimensions()` (a panic, modelled `none`, when the list is
empty), stores a single viewport computed from those dimensions into
`dynamic_state.viewports`, and builds one framebuffer per image. The mutation
of `dynamic_state` is returned as the first component. -/
def window_size_dependent_setup (images : List SwapchainImage) :
    Option (Viewport × List Framebuffer) :=
  match images with
  | [] => none
  | i0 :: _ =>
    some (⟨0, 0, i0.width, i0.height, 0, 1⟩, images.map (fun i => ⟨i⟩))

/-- Modelled from the spec: `create_swapchain` in
`src/vulkan/initialization.rs` calls `Swapchain::new` requesting
`caps.min_image_count` images; the driver (outside this repository) returns
at least that many, here `min_image_count + extra`. Generation 0. -/
def create_swapchain (min_image_count extra w h : Nat) :
    SwapchainState × List SwapchainImage :=
  let sc : SwapchainState := ⟨0, w, h, min_image_count + extra⟩
  (sc, sc.images)

/-- The acquire-completion token of one tick: the future returned by
`swapchain::acquire_next_image`, identified by the swapchain generation it
was acquired from and the image index it signals for. -/
structure AcquireToken where
  scGen : Nat
  image_num : Nat
  deriving DecidableEq

/-- The dependency composed in `main` before the newly recorded commands:
`previous_frame_end.take().unwrap().join(acquire_future)`. -/
structure Dependency where
  prev : Token
  acq : AcquireToken
  deriving DecidableEq

/-- Outcome of `swapchain.recreate_with_dimensions` as classified by `main`. -/
inductive RebuildResult where
  | ok : RebuildResult
  | unsupportedDimensions : RebuildResult
  | fatal : RebuildResult
  deriving DecidableEq

/-- Outcome of `swapchain::acquire_next_image` as classified by `main`. -/
inductive AcquireResult where
  | ok : Nat → Bool → AcquireResult
  | outOfDate : AcquireResult
  | fatal : AcquireResult
  deriving DecidableEq

/-- Outcome of `then_signal_fence_and_flush` as classified by `main`. -/
inductive FlushResult where
  | ok : FlushResult
  | outOfDate : FlushResult
  | otherError : FlushResult
  deriving DecidableEq

/-- Record of one submit-and-present (`join … then_execute …
then_swapchain_present … then_signal_fence_and_flush` and the match on its
result). `waited` records whether `future.wait(None)` ran; `errorReported`
records the `println!` of the non-out-of-date error arm; `tokenStored` is
the value put back into `previous_frame_end`. -/
structure SubmissionInfo where
  subId : Nat
  dep : Dependency
  presentGen : Nat
  presentImage : Nat
  flushOutcome : FlushResult
  waited : Bool
  errorReported : Bool
  tokenStored : Token
  deriving DecidableEq

/-- One observable step of a tick, in execution order. `staleAssign b a`
records the unconditional `recreate_swapchain = suboptimal` assignment, with
the flag value `b` before it and `a` the assigned value. -/
inductive Step where
  | cleanup : Step
  | rebuilt : Nat × Nat → Nat → Step
  | rebuildUnsupported : Step
  | acquired : Nat → Nat → Bool → Step
  | acquireOutOfDate : Step
  | staleAssign : Bool → Bool → Step
  | encoded : Nat → Nat → Step
  | submitted : SubmissionInfo → Step
  deriving DecidableEq

/-- Is this step the conditional-rebuild step (taken, whether it succeeded
or returned `UnsupportedDimensions`)? -/
def Step.isRebuild : Step → Bool
  | .rebuilt _ _ => true
  | .rebuildUnsupported => true
  | _ => false

/-- The mutable state of `main`'s event-loop closure that the frame
scheduler owns: `recreate_swapchain` (StaleFlag), `previous_frame_end`
(CompletionToken), the current swapchain, the framebuffers, and
`dynamic_state.viewports` (a single viewport once set). `sub_count` numbers
submission attempts in order. -/
structure LoopState where
  recreate_swapchain : Bool
  previous_frame_end : Token
  swapchain : SwapchainState
  framebuffers : List Framebuffer
  viewports : Option Viewport
  sub_count : Nat
  deriving DecidableEq

/-- Environment inputs consumed by one tick: the `min_image_extent` reported
by the surface-capabilities query inside the rebuild branch, the outcome of
`recreate_with_dimensions` and the image count of the rebuilt swapchain, the
outcome of `acquire_next_image`, and the outcome of the fence flush. -/
structure TickInput where
  min_image_extent : Nat × Nat
  rebuild : RebuildResult
  new_num_images : Nat
  acquire : AcquireResult
  flush : FlushResult
  deriving DecidableEq

/-- Result of the conditional-rebuild step. -/
inductive RebuildPhaseResult where
  | panicked : RebuildPhaseResult
  | abort : LoopState → List Step → RebuildPhaseResult
  | proceed : LoopState → List Step → RebuildPhaseResult
  deriving DecidableEq

/-- The `if recreate_swapchain { … }` block of the tick: query
`min_image_extent`, call `recreate_with_dimensions`; on
`UnsupportedDimensions` return from the closure (abort the tick, state
untouched); on any other error panic; on success install the new swapchain,
rebuild all framebuffers via `window_size_dependent_setup`, and clear the
flag. -/
def rebuildPhase (s : LoopState) (inp : TickInput) : RebuildPhaseResult :=
  if s.recreate_swapchain then
    match inp.rebuild with
    | .fatal => .panicked
    | .unsupportedDimensions => .abort s [.rebuildUnsupported]
    | .ok =>
      let d := inp.min_image_extent
      let newSc : SwapchainState := ⟨s.swapchain.gen + 1, d.1, d.2, inp.new_num_images⟩
      match window_size_dependent_setup newSc.images with
      | none => .panicked
      | some (vp, fbs) =>
        .proceed { s with swapchain := newSc, framebuffers := fbs,
                          viewports := some vp, recreate_swapchain := false }
          [.rebuilt d newSc.gen]
  else .proceed s []

/-- The submit-and-present step and the match on its flush result:
on `Ok(future)` run `future.wait(None)` and store the pending token; on
`Err(FlushError::OutOfDate)` set `recreate_swapchain` and store
`sync::now(device)`; on any other error print it and store
`sync::now(device)`. -/
def submitPhase (s2 : LoopState) (dep : Dependency) (image_num : Nat) :
    FlushResult → LoopState × SubmissionInfo
  | .ok =>
    ({ s2 with previous_frame_end := .pending s2.sub_count,
               sub_count := s2.sub_count + 1 },
     ⟨s2.sub_count, dep, s2.swapchain.gen, image_num, .ok, true, false,
      .pending s2.sub_count⟩)
  | .outOfDate =>
    ({ s2 with recreate_swapchain := true, previous_frame_end := .satisfied,
               sub_count := s2.sub_count + 1 },
     ⟨s2.sub_count, dep, s2.swapchain.gen, image_num, .outOfDate, false, false,
      .satisfied⟩)
  | .otherError =>
    ({ s2 with previous_frame_end := .satisfied, sub_count := s2.sub_count + 1 },
     ⟨s2.sub_count, dep, s2.swapchain.gen, image_num, .otherError, false, true,
      .satisfied⟩)

/-- The tick from `acquire_next_image` on: classify acquire, run the
unconditional `recreate_swapchain = suboptimal` assignment, encode against
`framebuffers[image_num]` (out-of-bounds is a panic, `none`), compose the
dependency `previous_frame_end.join(acquire_future)`, then submit and
present. -/
def acquirePhase (s : LoopState) (inp : TickInput) :
    Option (LoopState × List Step) :=
  match inp.acquire with
  | .fatal => none
  | .outOfDate => some ({ s with recreate_swapchain := true }, [.acquireOutOfDate])
  | .ok image_num suboptimal =>
    let g := s.swapchain.gen
    let flagBefore := s.recreate_swapchain
    let s2 := { s with recreate_swapchain := suboptimal }
    match s2.framebuffers.get? image_num with
    | none => none
    | some fb =>
      let dep : Dependency := ⟨s2.previous_frame_end, ⟨g, image_num⟩⟩
      let r := submitPhase s2 dep image_num inp.flush
      some (r.1,
        [.acquired g image_num suboptimal, .staleAssign flagBefore suboptimal,
         .encoded fb.image.gen image_num, .submitted r.2])

/-- One full tick: the `Event::RedrawEventsCleared` arm.
`previous_frame_end.cleanup_finished()` (non-blocking reclaim, no modelled
state effect), then the conditional rebuild, then the acquire/encode/submit
phase. `none` is a panic of the process. -/
def tick (s : LoopState) (inp : TickInput) : Option (LoopState × List Step) :=
  match rebuildPhase s inp with
  | .panicked => none
  | .abort s1 steps => some (s1, Step.cleanup :: steps)
  | .proceed s1 steps =>
    match acquirePhase s1 inp with
    | none => none
    | some (s2, steps2) => some (s2, Step.cleanup :: (steps ++ steps2))

/-- The events the closure in `main` distinguishes. -/
inductive LoopEvent where
  | closeRequested : LoopEvent
  | resized : Nat → Nat → LoopEvent
  | redrawEventsCleared : TickInput → LoopEvent
  | other : LoopEvent
  deriving DecidableEq

/-- The event-loop closure of `main`: `CloseRequested` sets
`ControlFlow::Exit` (no scheduler-state change), `Resized(_)` sets
`recreate_swapchain = true` (the payload is ignored by the code),
`RedrawEventsCleared` runs one tick, everything else is ignored. -/
def handleEvent (s : LoopState) (ev : LoopEvent) :
    Option (LoopState × List Step) :=
  match ev with
  | .closeRequested => some (s, [])
  | .resized _ _ => some ({ s with recreate_swapchain := true }, [])
  | .redrawEventsCleared inp => tick s inp
  | .other => some (s, [])

/-- Run the closure over a list of delivered events, collecting each event's
step log. -/
def run (s : LoopState) : List LoopEvent → Option (LoopState × List (List Step))
  | [] => some (s, [])
  | ev :: evs =>
    match handleEvent s ev with
    | none => none
    | some (s1, log) =>
      match run s1 evs with
      | none => none
      | some (s2, logs) => some (s2, log :: logs)

/-- The state right before `event_loop.run` in `main`: swapchain and images
from `create_swapchain`, framebuffers and viewport from the initial
`window_size_dependent_setup` call, `recreate_swapchain = false`,
`previous_frame_end = Some(sync::now(device))`. -/
def init_state (min_image_count extra w h : Nat) : Option LoopState :=
  match window_size_dependent_setup (create_swapchain min_image_count extra w h).2 with
  | none => none
  | some (vp, fbs) =>
    some ⟨false, .satisfied, (create_swapchain min_image_count extra w h).1,
      fbs, some vp, 0⟩

/-- The submissions recorded in a step log, in order. -/
def subsOf (log : List Step) : List SubmissionInfo :=
  log.filterMap fun st =>
    match st with
    | .submitted i => some i
    | _ => none

/-- The submissions of a whole trace, in order. -/
def traceSubs (logs : List (List Step)) : List SubmissionInfo :=
  (logs.map subsOf).flatten

/-- The dependency chain property: starting from carried token `tok` and
next submission id `n`, each submission in the list depends (through
`dep.prev`) exactly on the token stored by its immediate predecessor, stores
`pending` of its own id exactly when its flush succeeded and the satisfied
token otherwise, and the ids are consecutive. -/
def chainFrom : Token → Nat → List SubmissionInfo → Prop
  | _, _, [] => True
  | tok, n, info :: rest =>
    info.dep.prev = tok ∧ info.subId = n ∧
    (if info.flushOutcome = .ok then info.tokenStored = .pending n
     else info.tokenStored = .satisfied) ∧
    chainFrom info.tokenStored (n + 1) rest

/-- Every framebuffer currently held belongs to the current swapchain
generation. -/
def FbInv (s : LoopState) : Prop :=
  ∀ fb ∈ s.framebuffers, fb.image.gen = s.swapchain.gen

/-- Sample scheduler state used to instantiate hypotheses of the claim
theorems: stale flag set, satisfied token, an 800 by 600 generation-0
swapchain with two images. -/
def sampleStale : LoopState :=
  ⟨true, .satisfied, ⟨0, 800, 600, 2⟩,
   [⟨⟨0, 800, 600⟩⟩, ⟨⟨0, 800, 600⟩⟩], some ⟨0, 0, 800, 600, 0, 1⟩, 0⟩

/-- A tick input whose rebuild reports unsupported dimensions. -/
def inputUnsupported : TickInput :=
  ⟨(0, 0), .unsupportedDimensions, 0, .ok 0 false, .ok⟩

/-- Steady-state sample: stale flag clear, a pending token from submission 0,
an 800 by 600 generation-0 swapchain with two images, one submission made. -/
def sampleSteady : LoopState :=
  ⟨false, .pending 0, ⟨0, 800, 600, 2⟩,
   [⟨⟨0, 800, 600⟩⟩, ⟨⟨0, 800, 600⟩⟩], some ⟨0, 0, 800, 600, 0, 1⟩, 1⟩

/-- A tick input whose acquire reports out-of-date. -/
def inputAcqOOD : TickInput := ⟨(800, 600), .ok, 2, .outOfDate, .ok⟩

/-- A tick input whose acquire fails fatally. -/
def inputAcqFatal : TickInput := ⟨(800, 600), .ok, 2, .fatal, .ok⟩

/-- A tick input whose flush reports out-of-date. -/
def inputFlushOOD : TickInput := ⟨(800, 600), .ok, 2, .ok 0 false, .outOfDate⟩

/-- A tick input whose flush reports a non-out-of-date error. -/
def inputFlushErr : TickInput := ⟨(800, 600), .ok, 2, .ok 0 false, .otherError⟩

/-- A tick input where everything succeeds, acquiring image 0. -/
def inputFlushOk : TickInput := ⟨(800, 600), .ok, 2, .ok 0 false, .ok⟩

/-- The submission recorded when `sampleSteady` ticks with `inputFlushOOD`. -/
def infoFlushOOD : SubmissionInfo :=
  ⟨1, ⟨.pending 0, ⟨0, 0⟩⟩, 0, 0, .outOfDate, false, false, .satisfied⟩

/-- The state after `sampleSteady` ticks with `inputFlushOOD`. -/
def afterFlushOOD : LoopState :=
  { sampleSteady with
    recreate_swapchain := true
    previous_frame_end := .satisfied
    sub_count := 2 }

/-- The log of `sampleSteady` ticking with `inputFlushOOD`. -/
def logFlushOOD : List Step :=
  [.cleanup, .acquired 0 0 false, .staleAssign false false, .encoded 0 0,
   .submitted infoFlushOOD]

/-- The submission recorded when `sampleSteady` ticks with `inputFlushErr`. -/
def infoFlushErr : SubmissionInfo :=
  ⟨1, ⟨.pending 0, ⟨0, 0⟩⟩, 0, 0, .otherError, false, true, .satisfied⟩

/-- The state after `sampleSteady` ticks with `inputFlushErr`. -/
def afterFlushErr : LoopState :=
  { sampleSteady with previous_frame_end := .satisfied, sub_count := 2 }

/-- The log of `sampleSteady` ticking with `inputFlushErr`. -/
def logFlushErr : List Step :=
  [.cleanup, .acquired 0 0 false, .staleAssign false false, .encoded 0 0,
   .submitted infoFlushErr]

/-- The submission of the tick after an error reset the token: `afterFlushErr`
(whose flag is clear) ticking with `inputFlushOk`. -/
def infoAfterReset : SubmissionInfo :=
  ⟨2, ⟨.satisfied, ⟨0, 0⟩⟩, 0, 0, .ok, true, false, .pending 2⟩

/-- The log of `afterFlushErr` ticking with `inputFlushOk`. -/
def logAfterReset : List Step :=
  [.cleanup, .acquired 0 0 false, .staleAssign false false, .encoded 0 0,
   .submitted infoAfterReset]

/-- A tick input with a successful rebuild to 400 by 300 and a fully
successful frame. -/
def inputRebuildOk : TickInput := ⟨(400, 300), .ok, 2, .ok 0 false, .ok⟩

/-- The submission of `sampleStale` ticking with `inputRebuildOk`. -/
def infoRebuildOk : SubmissionInfo :=
  ⟨0, ⟨.satisfied, ⟨1, 0⟩⟩, 1, 0, .ok, true, false, .pending 0⟩

/-- The state after `sampleStale` ticks with `inputRebuildOk`. -/
def afterRebuildOk : LoopState :=
  ⟨false, .pending 0, ⟨1, 400, 300, 2⟩,
   [⟨⟨1, 400, 300⟩⟩, ⟨⟨1, 400, 300⟩⟩], some ⟨0, 0, 400, 300, 0, 1⟩, 1⟩

/-- The log of `sampleStale` ticking with `inputRebuildOk`. -/
def logRebuildOk : List Step :=
  [.cleanup, .rebuilt (400, 300) 1, .acquired 1 0 false,
   .staleAssign false false, .encoded 1 0, .submitted infoRebuildOk]

/-- A tick input acquiring image 0 with `suboptimal = true`, all else
succeeding. -/
def inputSubopt : TickInput := ⟨(800, 600), .ok, 2, .ok 0 true, .ok⟩

/-- The submission of `sampleSteady` ticking with `inputSubopt`. -/
def infoSubopt : SubmissionInfo :=
  ⟨1, ⟨.pending 0, ⟨0, 0⟩⟩, 0, 0, .ok, true, false, .pending 1⟩

/-- The state after `sampleSteady` ticks with `inputSubopt`. -/
def afterSubopt : LoopState :=
  { sampleSteady with
    recreate_swapchain := true
    previous_frame_end := .pending 1
    sub_count := 2 }

/-- The log of `sampleSteady` ticking with `inputSubopt`. -/
def logSubopt : List Step :=
  [.cleanup, .acquired 0 0 true, .staleAssign false true, .encoded 0 0,
   .submitted infoSubopt]

/-- The state produced by `init_state 2 0 800 600`: the startup state with a
two-image 800 by 600 generation-0 swapchain. -/
def initSample : LoopState :=
  ⟨false, .satisfied, ⟨0, 800, 600, 2⟩,
   [⟨⟨0, 800, 600⟩⟩, ⟨⟨0, 800, 600⟩⟩], some ⟨0, 0, 800, 600, 0, 1⟩, 0⟩

/-- The submission of the first tick of `initSample` with `inputFlushOk`. -/
def infoTick1 : SubmissionInfo :=
  ⟨0, ⟨.satisfied, ⟨0, 0⟩⟩, 0, 0, .ok, true, false, .pending 0⟩

/-- The log of the first tick of `initSample` with `inputFlushOk`. -/
def logTick1 : List Step :=
  [.cleanup, .acquired 0 0 false, .staleAssign false false, .encoded 0 0,
   .submitted infoTick1]

/-- The submission of the second successive successful tick. -/
def infoTick2 : SubmissionInfo :=
  ⟨1, ⟨.pending 0, ⟨0, 0⟩⟩, 0, 0, .ok, true, false, .pending 1⟩

/-- The log of the second successive successful tick. -/
def logTick2 : List Step :=
  [.cleanup, .acquired 0 0 false, .staleAssign false false, .encoded 0 0,
   .submitted infoTick2]

/-- The state after two successive successful ticks from `initSample`. -/
def afterTick2 : LoopState :=
  ⟨false, .pending 1, ⟨0, 800, 600, 2⟩,
   [⟨⟨0, 800, 600⟩⟩, ⟨⟨0, 800, 600⟩⟩], some ⟨0, 0, 800, 600, 0, 1⟩, 2⟩

/-! ### Helper lemmas -/

lemma mem_images {sc : SwapchainState} {i : SwapchainImage} (h : i ∈ sc.images) :
    i = ⟨sc.gen, sc.width, sc.height⟩ := by
  simp only [SwapchainState.images, List.mem_map, List.mem_range] at h
  obtain ⟨a, _, ha⟩ := h
  exact ha.symm

lemma wsds_eq_some {images : List SwapchainImage} {vp : Viewport}
    {fbs : List Framebuffer}
    (h : window_size_dependent_setup images = some (vp, fbs)) :
    fbs = images.map (fun i => ⟨i⟩) ∧
    ∃ i0 rest, images = i0 :: rest ∧ vp = ⟨0, 0, i0.width, i0.height, 0, 1⟩ := by
  cases images with
  | nil => simp [window_size_dependent_setup] at h
  | cons i0 rest =>
    simp only [window_size_dependent_setup, Option.some.injEq, Prod.mk.injEq] at h
    exact ⟨h.2.symm, i0, rest, rfl, h.1.symm⟩

lemma rebuildPhase_not_stale {s : LoopState} (inp : TickInput)
    (h : s.recreate_swapchain = false) :
    rebuildPhase s inp = .proceed s [] := by
  simp [rebuildPhase, h]

lemma rebuildPhase_unsupported {s : LoopState} {inp : TickInput}
    (h1 : s.recreate_swapchain = true)
    (h2 : inp.rebuild = .unsupportedDimensions) :
    rebuildPhase s inp = .abort s [.rebuildUnsupported] := by
  simp [rebuildPhase, h1, h2]

lemma rebuildPhase_abort {s : LoopState} {inp : TickInput} {s1 : LoopState}
    {steps : List Step}
    (h : rebuildPhase s inp = .abort s1 steps) :
    s1 = s ∧ steps = [.rebuildUnsupported] ∧ s.recreate_swapchain = true ∧
    inp.rebuild = .unsupportedDimensions := by
  by_cases hf : s.recreate_swapchain
  · cases hr : inp.rebuild with
    | ok =>
      simp only [rebuildPhase, hf, hr, if_true] at h
      split at h
      · exact RebuildPhaseResult.noConfusion h
      · exact RebuildPhaseResult.noConfusion h
    | unsupportedDimensions =>
      simp only [rebuildPhase, hf, hr, if_true,
        RebuildPhaseResult.abort.injEq] at h
      exact ⟨h.1.symm, h.2.symm, hf, rfl⟩
    | fatal =>
      simp only [rebuildPhase, hf, hr, if_true] at h
      exact RebuildPhaseResult.noConfusion h
  · simp only [Bool.not_eq_true] at hf
    simp only [rebuildPhase, hf, Bool.false_eq_true, if_false] at h
    exact RebuildPhaseResult.noConfusion h

lemma rebuildPhase_proceed {s : LoopState} {inp : TickInput} {s1 : LoopState}
    {steps : List Step}
    (h : rebuildPhase s inp = .proceed s1 steps) :
    (s1 = s ∧ steps = [] ∧ s.recreate_swapchain = false) ∨
    (s.recreate_swapchain = true ∧ inp.rebuild = .ok ∧ 0 < inp.new_num_images ∧
      steps = [.rebuilt inp.min_image_extent (s.swapchain.gen + 1)] ∧
      s1.recreate_swapchain = false ∧
      s1.previous_frame_end = s.previous_frame_end ∧
      s1.sub_count = s.sub_count ∧
      s1.swapchain = ⟨s.swapchain.gen + 1, inp.min_image_extent.1,
        inp.min_image_extent.2, inp.new_num_images⟩ ∧
      s1.viewports = some ⟨0, 0, inp.min_image_extent.1,
        inp.min_image_extent.2, 0, 1⟩ ∧
      FbInv s1) := by
  by_cases hf : s.recreate_swapchain
  · cases hr : inp.rebuild with
    | ok =>
      right
      simp only [rebuildPhase, hf, hr, if_true] at h
      split at h
      · exact RebuildPhaseResult.noConfusion h
      · next vp fbs hw =>
        injection h with hs1 hsteps
        obtain ⟨hfbs, i0, rest, himg, hvp⟩ := wsds_eq_some hw
        have hn : 0 < inp.new_num_images := by
          by_contra hn
          have h0 : inp.new_num_images = 0 := by omega
          simp [SwapchainState.images, h0] at himg
        have hi0 : i0 = ⟨s.swapchain.gen + 1, inp.min_image_extent.1,
            inp.min_image_extent.2⟩ :=
          mem_images (i := i0) (by rw [himg]; exact List.mem_cons_self _ _)
        subst hs1
        refine ⟨hf, rfl, hn, hsteps.symm, rfl, rfl, rfl, rfl, ?_, ?_⟩
        · rw [hvp, hi0]
        · intro fb hfb
          simp only at hfb
          rw [hfbs] at hfb
          simp only [List.mem_map] at hfb
          obtain ⟨i, hi, hfbi⟩ := hfb
          have hig := mem_images hi
          rw [← hfbi, hig]
    | unsupportedDimensions =>
      simp only [rebuildPhase, hf, hr, if_true] at h
      exact RebuildPhaseResult.noConfusion h
    | fatal =>
      simp only [rebuildPhase, hf, hr, if_true] at h
      exact RebuildPhaseResult.noConfusion h
  · simp only [Bool.not_eq_true] at hf
    simp only [rebuildPhase, hf, Bool.false_eq_true, if_false] at h
    injection h with h1 h2
    exact Or.inl ⟨h1.symm, h2.symm, hf⟩

lemma submitPhase_info (s2 : LoopState) (dep : Dependency) (i : Nat)
    (fl : FlushResult) :
    (submitPhase s2 dep i fl).2.dep = dep ∧
    (submitPhase s2 dep i fl).2.subId = s2.sub_count ∧
    (submitPhase s2 dep i fl).2.presentGen = s2.swapchain.gen ∧
    (submitPhase s2 dep i fl).2.presentImage = i ∧
    (submitPhase s2 dep i fl).2.flushOutcome = fl := by
  cases fl <;> simp [submitPhase]

lemma submitPhase_state (s2 : LoopState) (dep : Dependency) (i : Nat)
    (fl : FlushResult) :
    (submitPhase s2 dep i fl).1.previous_frame_end
      = (submitPhase s2 dep i fl).2.tokenStored ∧
    (submitPhase s2 dep i fl).1.sub_count = s2.sub_count + 1 ∧
    (submitPhase s2 dep i fl).1.swapchain = s2.swapchain ∧
    (submitPhase s2 dep i fl).1.framebuffers = s2.framebuffers ∧
    (submitPhase s2 dep i fl).1.viewports = s2.viewports := by
  cases fl <;> simp [submitPhase]

lemma submitPhase_token (s2 : LoopState) (dep : Dependency) (i : Nat)
    (fl : FlushResult) :
    if fl = .ok then (submitPhase s2 dep i fl).2.tokenStored = .pending s2.sub_count
    else (submitPhase s2 dep i fl).2.tokenStored = .satisfied := by
  cases fl <;> simp [submitPhase]

lemma acquirePhase_eq_some {s : LoopState} {inp : TickInput} {s2 : LoopState}
    {steps : List Step}
    (h : acquirePhase s inp = some (s2, steps)) :
    (inp.acquire = .outOfDate ∧ s2 = { s with recreate_swapchain := true } ∧
      steps = [.acquireOutOfDate]) ∨
    (∃ i sub fb, inp.acquire = .ok i sub ∧ s.framebuffers.get? i = some fb ∧
      s2 = (submitPhase { s with recreate_swapchain := sub }
        ⟨s.previous_frame_end, ⟨s.swapchain.gen, i⟩⟩ i inp.flush).1 ∧
      steps = [.acquired s.swapchain.gen i sub,
        .staleAssign s.recreate_swapchain sub,
        .encoded fb.image.gen i,
        .submitted (submitPhase { s with recreate_swapchain := sub }
          ⟨s.previous_frame_end, ⟨s.swapchain.gen, i⟩⟩ i inp.flush).2]) := by
  unfold acquirePhase at h
  cases ha : inp.acquire with
  | fatal => rw [ha] at h; cases h
  | outOfDate =>
    rw [ha] at h
    simp only [Option.some.injEq, Prod.mk.injEq] at h
    exact Or.inl ⟨rfl, h.1.symm, h.2.symm⟩
  | ok i sub =>
    rw [ha] at h
    simp only at h
    rcases hfb : ({ s with recreate_swapchain := sub } : LoopState).framebuffers.get? i
        with _ | fb
    · rw [hfb] at h; cases h
    · rw [hfb] at h
      simp only [Option.some.injEq, Prod.mk.injEq] at h
      exact Or.inr ⟨i, sub, fb, rfl, hfb, h.1.symm, h.2.symm⟩

lemma tick_eq_some {s : LoopState} {inp : TickInput} {s' : LoopState}
    {log : List Step}
    (h : tick s inp = some (s', log)) :
    (s' = s ∧ log = [.cleanup, .rebuildUnsupported] ∧
      s.recreate_swapchain = true ∧ inp.rebuild = .unsupportedDimensions) ∨
    (∃ s1 steps steps2, rebuildPhase s inp = .proceed s1 steps ∧
      acquirePhase s1 inp = some (s', steps2) ∧
      log = Step.cleanup :: (steps ++ steps2)) := by
  unfold tick at h
  split at h
  · exact Option.noConfusion h
  · next s1 steps hr =>
    simp only [Option.some.injEq, Prod.mk.injEq] at h
    obtain ⟨h1, h2, h3, h4⟩ := rebuildPhase_abort hr
    exact Or.inl ⟨h.1.symm.trans h1, by rw [← h.2, h2], h3, h4⟩
  · next s1 steps hr =>
    split at h
    · exact Option.noConfusion h
    · next s2 steps2 ha =>
      simp only [Option.some.injEq, Prod.mk.injEq] at h
      rw [h.1] at ha
      exact Or.inr ⟨s1, steps, steps2, hr, ha, h.2.symm⟩

lemma rebuildPhase_proceed_steps {s : LoopState} {inp : TickInput}
    {s1 : LoopState} {steps : List Step}
    (h : rebuildPhase s inp = .proceed s1 steps) :
    steps = [] ∨
    steps = [.rebuilt inp.min_image_extent (s.swapchain.gen + 1)] := by
  rcases rebuildPhase_proceed h with ⟨_, h2, _⟩ | ⟨_, _, _, h2, _⟩
  · exact Or.inl h2
  · exact Or.inr h2

lemma rebuildPhase_proceed_carry {s : LoopState} {inp : TickInput}
    {s1 : LoopState} {steps : List Step}
    (h : rebuildPhase s inp = .proceed s1 steps) :
    s1.previous_frame_end = s.previous_frame_end ∧
    s1.sub_count = s.sub_count := by
  rcases rebuildPhase_proceed h with ⟨he, _, _⟩ | ⟨_, _, _, _, _, hp, hc, _⟩
  · rw [he]; exact ⟨rfl, rfl⟩
  · exact ⟨hp, hc⟩

/-- A tick started with the stale flag set runs the conditional-rebuild step
first: its log is `cleanup` followed by a rebuild step (successful or
unsupported) before anything else. -/
lemma tick_stale_rebuilds_first {s : LoopState} {inp : TickInput}
    {s' : LoopState} {log : List Step} (hf : s.recreate_swapchain = true)
    (h : tick s inp = some (s', log)) :
    ∃ st rest, log = Step.cleanup :: st :: rest ∧ st.isRebuild = true := by
  rcases tick_eq_some h with ⟨_, hlog, _, _⟩ | ⟨s1, steps, steps2, hr, _, hlog⟩
  · exact ⟨.rebuildUnsupported, [], by rw [hlog], rfl⟩
  · rcases rebuildPhase_proceed hr with ⟨_, _, hff⟩ | ⟨_, _, _, hsteps, _⟩
    · rw [hf] at hff; cases hff
    · exact ⟨.rebuilt inp.min_image_extent (s.swapchain.gen + 1), steps2,
        by rw [hlog, hsteps]; rfl, rfl⟩

/-- Characterization of any submission recorded by a tick: its dependency's
carried token is exactly the `previous_frame_end` the tick started with, its
id is the tick's next submission number, the token it stores (pending on a
successful flush, satisfied otherwise) becomes the next tick's
`previous_frame_end`, waiting and error reporting match the flush outcome,
and it presents to the very swapchain generation and image index of this
tick's acquire token. -/
lemma tick_submitted {s : LoopState} {inp : TickInput} {s' : LoopState}
    {log : List Step} {info : SubmissionInfo}
    (h : tick s inp = some (s', log)) (hm : Step.submitted info ∈ log) :
    info.dep.prev = s.previous_frame_end ∧
    info.subId = s.sub_count ∧
    info.flushOutcome = inp.flush ∧
    (if inp.flush = .ok then info.tokenStored = .pending s.sub_count
     else info.tokenStored = .satisfied) ∧
    s'.previous_frame_end = info.tokenStored ∧
    s'.sub_count = s.sub_count + 1 ∧
    (if inp.flush = .ok then info.waited = true else info.waited = false) ∧
    (if inp.flush = .otherError then info.errorReported = true
     else info.errorReported = false) ∧
    (inp.flush = .outOfDate → s'.recreate_swapchain = true) ∧
    info.presentGen = info.dep.acq.scGen ∧
    info.presentImage = info.dep.acq.image_num ∧
    (∃ sub, Step.acquired info.dep.acq.scGen info.dep.acq.image_num sub ∈ log) := by
  rcases tick_eq_some h with ⟨_, hlog, _, _⟩ | ⟨s1, steps, steps2, hr, ha, hlog⟩
  · rw [hlog] at hm; simp at hm
  · obtain ⟨hprev, hcount⟩ := rebuildPhase_proceed_carry hr
    have hnosub : ∀ x ∈ steps, ¬ x = Step.submitted info := by
      rcases rebuildPhase_proceed_steps hr with h2 | h2 <;> rw [h2] <;> simp
    rcases acquirePhase_eq_some ha with ⟨_, _, hsteps2⟩ | ⟨i, sub, fb, hacq, hfb, hs', hsteps2⟩
    · rw [hlog, hsteps2] at hm
      simp only [List.mem_cons, List.mem_append] at hm
      rcases hm with hm | hm | hm
      · exact Step.noConfusion hm
      · exact absurd rfl (hnosub _ hm)
      · simp at hm
    · rw [hlog, hsteps2] at hm
      simp only [List.mem_cons, List.mem_append] at hm
      have hinfo : info = (submitPhase { s1 with recreate_swapchain := sub }
          ⟨s1.previous_frame_end, ⟨s1.swapchain.gen, i⟩⟩ i inp.flush).2 := by
        rcases hm with hm | hm | hm
        · exact Step.noConfusion hm
        · exact absurd rfl (hnosub _ hm)
        · simpa using hm
      have hmemacq : Step.acquired s1.swapchain.gen i sub ∈ log := by
        rw [hlog, hsteps2]
        simp [List.mem_cons, List.mem_append]
      have hdep : info.dep = ⟨s1.previous_frame_end, ⟨s1.swapchain.gen, i⟩⟩ := by
        rw [hinfo]; exact (submitPhase_info _ _ _ _).1
      refine ⟨by rw [hdep]; exact hprev, ?_, ?_, ?_, ?_, ?_, ?_, ?_, ?_, ?_, ?_, ?_⟩
      · rw [hinfo]
        exact ((submitPhase_info _ _ _ _).2.1).trans hcount
      · rw [hinfo]
        exact (submitPhase_info _ _ _ _).2.2.2.2
      · rw [hinfo, ← hcount]
        cases inp.flush <;> simp [submitPhase]
      · rw [hs', hinfo]
        cases inp.flush <;> simp [submitPhase]
      · rw [hs', ← hcount]
        cases inp.flush <;> simp [submitPhase]
      · rw [hinfo]
        cases inp.flush <;> simp [submitPhase]
      · rw [hinfo]
        cases inp.flush <;> simp [submitPhase]
      · intro hfl
        rw [hs', hfl]
        simp [submitPhase]
      · rw [hinfo]
        cases inp.flush <;> simp [submitPhase]
      · rw [hinfo]
        cases inp.flush <;> simp [submitPhase]
      · rw [hdep]
        exact ⟨sub, hmemacq⟩

/-- A tick that records no submission leaves `previous_frame_end` and the
submission counter unchanged; a tick that records one records exactly one. -/
lemma tick_subsOf {s : LoopState} {inp : TickInput} {s' : LoopState}
    {log : List Step}
    (h : tick s inp = some (s', log)) :
    (subsOf log = [] ∧ s'.previous_frame_end = s.previous_frame_end ∧
      s'.sub_count = s.sub_count) ∨
    (∃ info, subsOf log = [info]) := by
  rcases tick_eq_some h with ⟨hs', hlog, _, hf⟩ | ⟨s1, steps, steps2, hr, ha, hlog⟩
  · left
    rw [hs', hlog]
    exact ⟨by simp [subsOf], rfl, rfl⟩
  · obtain ⟨hprev, hcount⟩ := rebuildPhase_proceed_carry hr
    have hsteps : subsOf steps = [] := by
      rcases rebuildPhase_proceed_steps hr with h2 | h2 <;> rw [h2] <;> simp [subsOf]
    rcases acquirePhase_eq_some ha with ⟨_, hs', hsteps2⟩ | ⟨i, sub, fb, hacq, hfb, hs', hsteps2⟩
    · left
      rw [hlog, hsteps2]
      refine ⟨?_, ?_, ?_⟩
      · simp only [subsOf, List.filterMap_cons, List.filterMap_append] at *
        rw [hsteps]
        rfl
      · rw [hs']; exact hprev
      · rw [hs']; exact hcount
    · right
      refine ⟨(submitPhase { s1 with recreate_swapchain := sub }
          ⟨s1.previous_frame_end, ⟨s1.swapchain.gen, i⟩⟩ i inp.flush).2, ?_⟩
      rw [hlog, hsteps2]
      simp only [subsOf, List.filterMap_cons, List.filterMap_append] at *
      rw [hsteps]
      rfl

/-! ### Claim C3 -/

/-- Claim C3: if during the conditional rebuild step `recreate_with_dimensions`
returns `UnsupportedDimensions`, the tick aborts entirely: the state is
returned exactly unchanged (StaleFlag still set, swapchain, framebuffers,
viewport and CompletionToken untouched), the log shows no acquire, no encode
and no submission, and the result is `some` (no panic); the rebuild is
retried on the next tick because the flag is still set. -/
theorem c3_unsupported_rebuild_aborts (s : LoopState) (inp : TickInput)
    (h1 : s.recreate_swapchain = true)
    (h2 : inp.rebuild = .unsupportedDimensions) :
    tick s inp = some (s, [.cleanup, .rebuildUnsupported]) := by
  simp [tick, rebuildPhase_unsupported h1 h2]

/-- Witness for C3 at a concrete stale state and unsupported-dimensions
input. -/
theorem c3_unsupported_rebuild_aborts_witness :
    tick sampleStale inputUnsupported
      = some (sampleStale, [.cleanup, .rebuildUnsupported]) :=
  c3_unsupported_rebuild_aborts sampleStale inputUnsupported rfl rfl

lemma rebuildPhase_proceed_flag {s : LoopState} {inp : TickInput}
    {s1 : LoopState} {steps : List Step}
    (h : rebuildPhase s inp = .proceed s1 steps) :
    s1.recreate_swapchain = false := by
  rcases rebuildPhase_proceed h with ⟨he, _, hf⟩ | ⟨_, _, _, _, hf, _⟩
  · rw [he]; exact hf
  · exact hf

/-! ### Claim C4 -/

/-- Claim C4: when `acquire_next_image` returns `OutOfDate` the tick stops:
the stale flag ends up set, `previous_frame_end` is untouched, nothing is
encoded and nothing is submitted, and any tick run from the resulting state
starts with the conditional-rebuild step before anything else (in
particular before any acquire). When acquire fails with anything other than
`OutOfDate` the tick panics (`none`, i.e. the process terminates). -/
theorem c4_acquire_error_classification :
    (∀ (s : LoopState) (inp : TickInput) (s' : LoopState) (log : List Step),
      inp.acquire = .outOfDate → tick s inp = some (s', log) →
      s'.recreate_swapchain = true ∧
      s'.previous_frame_end = s.previous_frame_end ∧
      (∀ g i, Step.encoded g i ∉ log) ∧
      (∀ info, Step.submitted info ∉ log) ∧
      (∀ inp2 s2 log2, tick s' inp2 = some (s2, log2) →
        ∃ st rest, log2 = Step.cleanup :: st :: rest ∧ st.isRebuild = true)) ∧
    (∀ (s : LoopState) (inp : TickInput),
      inp.acquire = .fatal → s.recreate_swapchain = false →
      tick s inp = none) := by
  constructor
  · intro s inp s' log hacq h
    have key : s'.recreate_swapchain = true ∧
        s'.previous_frame_end = s.previous_frame_end ∧
        (∀ g i, Step.encoded g i ∉ log) ∧
        (∀ info, Step.submitted info ∉ log) := by
      rcases tick_eq_some h with ⟨hs', hlog, hf, _⟩ |
        ⟨s1, steps, steps2, hr, ha, hlog⟩
      · subst hs'
        refine ⟨hf, rfl, ?_, ?_⟩
        · intro g i; rw [hlog]; simp
        · intro info; rw [hlog]; simp
      · rcases acquirePhase_eq_some ha with ⟨_, hs', hsteps2⟩ |
          ⟨i, sub, fb, hok, _⟩
        · obtain ⟨hprev, _⟩ := rebuildPhase_proceed_carry hr
          refine ⟨by rw [hs'], by rw [hs']; exact hprev, ?_, ?_⟩
          · intro g i
            rcases rebuildPhase_proceed_steps hr with h2 | h2 <;>
              rw [hlog, h2, hsteps2] <;> simp
          · intro info
            rcases rebuildPhase_proceed_steps hr with h2 | h2 <;>
              rw [hlog, h2, hsteps2] <;> simp
        · rw [hacq] at hok
          exact AcquireResult.noConfusion hok
    exact ⟨key.1, key.2.1, key.2.2.1, key.2.2.2,
      fun inp2 s2 log2 h2 => tick_stale_rebuilds_first key.1 h2⟩
  · intro s inp hacq hf
    simp [tick, rebuildPhase_not_stale inp hf, acquirePhase, hacq]

/-- Witness for C4: at the steady sample state an out-of-date acquire sets the
flag and keeps the token, and a fatal acquire panics the tick. -/
theorem c4_acquire_error_classification_witness :
    (({ sampleSteady with recreate_swapchain := true } : LoopState).recreate_swapchain
        = true ∧
     ({ sampleSteady with recreate_swapchain := true } : LoopState).previous_frame_end
        = sampleSteady.previous_frame_end) ∧
    tick sampleSteady inputAcqFatal = none := by
  constructor
  · have h := c4_acquire_error_classification.1 sampleSteady inputAcqOOD
      { sampleSteady with recreate_swapchain := true }
      [.cleanup, .acquireOutOfDate] rfl (by decide)
    exact ⟨h.1, h.2.1⟩
  · exact c4_acquire_error_classification.2 sampleSteady inputAcqFatal rfl rfl

/-! ### Claim C5 -/

/-- Claim C5: when the submit-and-present flush fails with out-of-date, the
stale flag is set and the stored CompletionToken is the already-satisfied
one; on any other flush error the error is reported (the tick still returns,
not a panic) and the token is likewise reset to already-satisfied; and from
any state whose carried token is the satisfied one, the next submission's
dependency carries the satisfied token, not the failed frame's. -/
theorem c5_flush_failure_recovery :
    (∀ (s : LoopState) (inp : TickInput) (s' : LoopState) (log : List Step)
        (info : SubmissionInfo),
      tick s inp = some (s', log) → Step.submitted info ∈ log →
      inp.flush = .outOfDate →
      s'.recreate_swapchain = true ∧ s'.previous_frame_end = .satisfied ∧
      info.tokenStored = .satisfied) ∧
    (∀ (s : LoopState) (inp : TickInput) (s' : LoopState) (log : List Step)
        (info : SubmissionInfo),
      tick s inp = some (s', log) → Step.submitted info ∈ log →
      inp.flush = .otherError →
      info.errorReported = true ∧ s'.previous_frame_end = .satisfied ∧
      info.tokenStored = .satisfied) ∧
    (∀ (s' : LoopState) (inp2 : TickInput) (s2 : LoopState) (log2 : List Step)
        (info2 : SubmissionInfo),
      s'.previous_frame_end = .satisfied →
      tick s' inp2 = some (s2, log2) → Step.submitted info2 ∈ log2 →
      info2.dep.prev = .satisfied) := by
  refine ⟨?_, ?_, ?_⟩
  · intro s inp s' log info h hm hfl
    obtain ⟨_, _, _, htok, hsprev, _, _, _, hflag, _⟩ := tick_submitted h hm
    rw [hfl] at htok
    simp only [reduceCtorEq, if_false] at htok
    exact ⟨hflag hfl, by rw [hsprev, htok], htok⟩
  · intro s inp s' log info h hm hfl
    obtain ⟨_, _, _, htok, hsprev, _, _, herr, _, _⟩ := tick_submitted h hm
    rw [hfl] at htok herr
    simp only [reduceCtorEq, if_false, if_true] at htok herr
    exact ⟨herr, by rw [hsprev, htok], htok⟩
  · intro s' inp2 s2 log2 info2 hsat h2 hm2
    obtain ⟨hdep, _⟩ := tick_submitted h2 hm2
    exact hdep.trans hsat

/-- Witness for C5 at concrete states and inputs: out-of-date flush, other
flush error, and the next submission after the reset. -/
theorem c5_flush_failure_recovery_witness :
    (afterFlushOOD.recreate_swapchain = true ∧
     afterFlushOOD.previous_frame_end = .satisfied ∧
     infoFlushOOD.tokenStored = .satisfied) ∧
    (infoFlushErr.errorReported = true ∧
     afterFlushErr.previous_frame_end = .satisfied ∧
     infoFlushErr.tokenStored = .satisfied) ∧
    infoAfterReset.dep.prev = .satisfied :=
  ⟨c5_flush_failure_recovery.1 sampleSteady inputFlushOOD afterFlushOOD
      logFlushOOD infoFlushOOD (by decide) (by decide) rfl,
   c5_flush_failure_recovery.2.1 sampleSteady inputFlushErr afterFlushErr
      logFlushErr infoFlushErr (by decide) (by decide) rfl,
   c5_flush_failure_recovery.2.2 afterFlushErr inputFlushOk
      { afterFlushErr with previous_frame_end := .pending 2, sub_count := 3 }
      logAfterReset infoAfterReset rfl (by decide) (by decide)⟩

/-! ### Claim C6 -/

/-- Claim C6: the stale flag transitions from set to clear only through a
successful rebuild. First, the unconditional `recreate_swapchain =
suboptimal` assignment made when classifying a successful acquire always
finds the flag already clear, so it never performs a true-to-false
transition. Second, whenever handling any event turns the flag from set to
clear, that event was a tick whose log contains a successful rebuild step. -/
theorem c6_stale_cleared_only_by_rebuild :
    (∀ (s : LoopState) (inp : TickInput) (s' : LoopState) (log : List Step),
      tick s inp = some (s', log) →
      ∀ b a, Step.staleAssign b a ∈ log → b = false) ∧
    (∀ (s : LoopState) (ev : LoopEvent) (s' : LoopState) (log : List Step),
      handleEvent s ev = some (s', log) →
      s.recreate_swapchain = true → s'.recreate_swapchain = false →
      ∃ d g, Step.rebuilt d g ∈ log) := by
  constructor
  · intro s inp s' log h b a hm
    rcases tick_eq_some h with ⟨_, hlog, _, _⟩ |
      ⟨s1, steps, steps2, hr, ha, hlog⟩
    · rw [hlog] at hm; simp at hm
    · have hflag := rebuildPhase_proceed_flag hr
      rcases acquirePhase_eq_some ha with ⟨_, _, hsteps2⟩ |
        ⟨i, sub, fb, _, _, _, hsteps2⟩ <;>
        rcases rebuildPhase_proceed_steps hr with h2 | h2 <;>
        rw [hlog, h2, hsteps2] at hm <;> simp at hm
      · rw [hm.1]; exact hflag
      · rw [hm.1]; exact hflag
  · intro s ev s' log h hset hclear
    cases ev with
    | closeRequested =>
      simp only [handleEvent, Option.some.injEq, Prod.mk.injEq] at h
      rw [← h.1, hset] at hclear
      exact Bool.noConfusion hclear
    | resized w hgt =>
      simp only [handleEvent, Option.some.injEq, Prod.mk.injEq] at h
      rw [← h.1] at hclear
      exact Bool.noConfusion hclear
    | other =>
      simp only [handleEvent, Option.some.injEq, Prod.mk.injEq] at h
      rw [← h.1, hset] at hclear
      exact Bool.noConfusion hclear
    | redrawEventsCleared inp =>
      simp only [handleEvent] at h
      rcases tick_eq_some h with ⟨hs', _, _, _⟩ |
        ⟨s1, steps, steps2, hr, ha, hlog⟩
      · rw [hs', hset] at hclear
        exact Bool.noConfusion hclear
      · rcases rebuildPhase_proceed hr with ⟨_, _, hff⟩ | ⟨_, _, _, h2, _⟩
        · rw [hset] at hff; exact Bool.noConfusion hff
        · exact ⟨inp.min_image_extent, s.swapchain.gen + 1,
            by rw [hlog, h2]; simp⟩

/-- Witness for C6: on the concrete stale-to-clear tick the acquire
classification saw a clear flag and the log contains the rebuild step. -/
theorem c6_stale_cleared_only_by_rebuild_witness :
    false = false ∧ ∃ d g, Step.rebuilt d g ∈ logRebuildOk :=
  ⟨c6_stale_cleared_only_by_rebuild.1 sampleStale inputRebuildOk
      afterRebuildOk logRebuildOk (by decide) false false (by decide),
   c6_stale_cleared_only_by_rebuild.2 sampleStale
      (.redrawEventsCleared inputRebuildOk) afterRebuildOk logRebuildOk
      (by decide) rfl rfl⟩

/-! ### Claim C7 -/

/-- Claim C7: a successful acquire with `suboptimal = true`, reached by a
tick (no unsupported-dimensions abort beforehand), sets the stale flag via
the classification assignment, leaves it set at the end of the tick, and the
tick nevertheless proceeds: it encodes against the acquired image index and
submits and presents that image index of the very swapchain generation the
image was acquired from. -/
theorem c7_suboptimal_proceeds :
    ∀ (s : LoopState) (inp : TickInput) (s' : LoopState) (log : List Step)
      (i : Nat),
      inp.acquire = .ok i true → tick s inp = some (s', log) →
      ¬(s.recreate_swapchain = true ∧ inp.rebuild = .unsupportedDimensions) →
      Step.staleAssign false true ∈ log ∧
      s'.recreate_swapchain = true ∧
      (∃ fbg, Step.encoded fbg i ∈ log) ∧
      (∃ info, Step.submitted info ∈ log ∧ info.presentImage = i ∧
        ∃ b, Step.acquired info.presentGen i b ∈ log) := by
  intro s inp s' log i hacq h habort
  rcases tick_eq_some h with ⟨_, _, hf, hu⟩ |
    ⟨s1, steps, steps2, hr, ha, hlog⟩
  · exact absurd ⟨hf, hu⟩ habort
  · rcases acquirePhase_eq_some ha with ⟨hood, _, _⟩ |
      ⟨i', sub, fb, hok, hfb, hs', hsteps2⟩
    · rw [hacq] at hood
      exact AcquireResult.noConfusion hood
    · rw [hacq] at hok
      obtain ⟨hi, hsub⟩ := AcquireResult.ok.inj hok
      subst hi; subst hsub
      have hflag := rebuildPhase_proceed_flag hr
      have hmem : ∀ x ∈ steps2, x ∈ log := by
        intro x hx
        rw [hlog]
        simp [List.mem_append, hx]
      have hstale : Step.staleAssign s1.recreate_swapchain true ∈ steps2 := by
        rw [hsteps2]; simp
      have henc : Step.encoded fb.image.gen i ∈ steps2 := by
        rw [hsteps2]; simp
      have hsubm : Step.submitted (submitPhase { s1 with recreate_swapchain := true }
          ⟨s1.previous_frame_end, ⟨s1.swapchain.gen, i⟩⟩ i inp.flush).2 ∈ steps2 := by
        rw [hsteps2]; simp
      have hacqd : Step.acquired s1.swapchain.gen i true ∈ steps2 := by
        rw [hsteps2]; simp
      refine ⟨?_, ?_, ?_, ?_⟩
      · have hst := hmem _ hstale
        rwa [hflag] at hst
      · rw [hs']
        cases inp.flush <;> simp [submitPhase]
      · exact ⟨fb.image.gen, hmem _ henc⟩
      · refine ⟨(submitPhase { s1 with recreate_swapchain := true }
          ⟨s1.previous_frame_end, ⟨s1.swapchain.gen, i⟩⟩ i inp.flush).2,
          hmem _ hsubm, ?_, true, ?_⟩
        · cases inp.flush <;> simp [submitPhase]
        · have hg : (submitPhase { s1 with recreate_swapchain := true }
              ⟨s1.previous_frame_end, ⟨s1.swapchain.gen, i⟩⟩ i inp.flush).2.presentGen
              = s1.swapchain.gen := by
            cases inp.flush <;> simp [submitPhase]
          rw [hg]
          exact hmem _ hacqd

/-- Witness for C7 at the steady sample state and a suboptimal acquire. -/
theorem c7_suboptimal_proceeds_witness :
    Step.staleAssign false true ∈ logSubopt ∧
    afterSubopt.recreate_swapchain = true ∧
    (∃ fbg, Step.encoded fbg 0 ∈ logSubopt) ∧
    (∃ info, Step.submitted info ∈ logSubopt ∧ info.presentImage = 0 ∧
      ∃ b, Step.acquired info.presentGen 0 b ∈ logSubopt) :=
  c7_suboptimal_proceeds sampleSteady inputSubopt afterSubopt logSubopt 0
    rfl (by decide) (by decide)

/-! ### Claim C8 -/

/-- Claim C8: on a successful flush the scheduler blocks
(`future.wait(None)` runs) on the newly produced CompletionToken before the
tick ends, and exactly that pending token is stored as the
CompletionToken carried into the next tick; the submission counter advances
by one, so at most one submission is in flight. -/
theorem c8_success_waits_and_stores_token :
    ∀ (s : LoopState) (inp : TickInput) (s' : LoopState) (log : List Step)
      (info : SubmissionInfo),
      tick s inp = some (s', log) → Step.submitted info ∈ log →
      inp.flush = .ok →
      info.waited = true ∧ info.tokenStored = .pending info.subId ∧
      s'.previous_frame_end = info.tokenStored ∧
      s'.sub_count = s.sub_count + 1 := by
  intro s inp s' log info h hm hfl
  obtain ⟨_, hid, _, htok, hsprev, hcount, hwait, _⟩ := tick_submitted h hm
  rw [hfl] at htok hwait
  simp only [reduceIte] at htok hwait
  exact ⟨hwait, by rw [htok, hid], hsprev, hcount⟩

/-- Witness for C8: the fully successful tick of `sampleSteady` with
`inputFlushOk`. -/
theorem c8_success_waits_and_stores_token_witness :
    infoAfterReset.waited = true ∧
    infoAfterReset.tokenStored = .pending infoAfterReset.subId ∧
    ({ afterFlushErr with previous_frame_end := .pending 2, sub_count := 3 }
      : LoopState).previous_frame_end = infoAfterReset.tokenStored ∧
    ({ afterFlushErr with previous_frame_end := .pending 2, sub_count := 3 }
      : LoopState).sub_count = afterFlushErr.sub_count + 1 :=
  c8_success_waits_and_stores_token afterFlushErr inputFlushOk
    { afterFlushErr with previous_frame_end := .pending 2, sub_count := 3 }
    logAfterReset infoAfterReset (by decide) (by decide) rfl

/-! ### Claim C2 -/

lemma FbInv_of_eq {s t : LoopState} (hfb : FbInv t)
    (h1 : s.framebuffers = t.framebuffers) (h2 : s.swapchain = t.swapchain) :
    FbInv s := by
  intro fb hm
  rw [h1] at hm
  rw [h2]
  exact hfb fb hm

lemma acquirePhase_preserves {s : LoopState} {inp : TickInput} {s2 : LoopState}
    {steps2 : List Step}
    (h : acquirePhase s inp = some (s2, steps2)) :
    s2.swapchain = s.swapchain ∧ s2.viewports = s.viewports ∧
    s2.framebuffers = s.framebuffers := by
  rcases acquirePhase_eq_some h with ⟨_, hs2, _⟩ | ⟨i, sub, fb, _, _, hs2, _⟩
  · rw [hs2]; exact ⟨rfl, rfl, rfl⟩
  · rw [hs2]
    obtain ⟨_, _, hsw, hfbs, hvp⟩ := submitPhase_state
      { s with recreate_swapchain := sub }
      ⟨s.previous_frame_end, ⟨s.swapchain.gen, i⟩⟩ i inp.flush
    exact ⟨hsw, hvp, hfbs⟩

lemma rebuildPhase_proceed_fbinv {s : LoopState} {inp : TickInput}
    {s1 : LoopState} {steps : List Step}
    (h : rebuildPhase s inp = .proceed s1 steps) (hfb : FbInv s) : FbInv s1 := by
  rcases rebuildPhase_proceed h with ⟨he, _, _⟩ |
    ⟨_, _, _, _, _, _, _, _, _, hfb1⟩
  · rw [he]; exact hfb
  · exact hfb1

lemma tick_fbinv {s : LoopState} {inp : TickInput} {s' : LoopState}
    {log : List Step}
    (h : tick s inp = some (s', log)) (hfb : FbInv s) : FbInv s' := by
  rcases tick_eq_some h with ⟨hs', _, _, _⟩ | ⟨s1, steps, steps2, hr, ha, _⟩
  · rw [hs']; exact hfb
  · have hfb1 := rebuildPhase_proceed_fbinv hr hfb
    obtain ⟨hsw, _, hfbs⟩ := acquirePhase_preserves ha
    exact FbInv_of_eq hfb1 hfbs hsw

lemma handleEvent_fbinv {s : LoopState} {ev : LoopEvent} {s' : LoopState}
    {log : List Step}
    (h : handleEvent s ev = some (s', log)) (hfb : FbInv s) : FbInv s' := by
  cases ev with
  | redrawEventsCleared inp =>
    simp only [handleEvent] at h
    exact tick_fbinv h hfb
  | closeRequested =>
    simp only [handleEvent, Option.some.injEq, Prod.mk.injEq] at h
    rw [← h.1]; exact hfb
  | resized w hgt =>
    simp only [handleEvent, Option.some.injEq, Prod.mk.injEq] at h
    rw [← h.1]
    exact fun fb hm => hfb fb hm
  | other =>
    simp only [handleEvent, Option.some.injEq, Prod.mk.injEq] at h
    rw [← h.1]; exact hfb

/-- Per-tick generation coherence: the framebuffer generation used at encode
time equals the swapchain generation the image was acquired from, the encode
image index is the acquired index, and the present call goes to the same
generation and index. -/
lemma tick_gen_coherent {s : LoopState} {inp : TickInput} {s' : LoopState}
    {log : List Step}
    (h : tick s inp = some (s', log)) (hfb : FbInv s) :
    (∀ g i b fbg j, Step.acquired g i b ∈ log →
      Step.encoded fbg j ∈ log → fbg = g ∧ j = i) ∧
    (∀ info g i b, Step.submitted info ∈ log →
      Step.acquired g i b ∈ log →
      info.presentGen = g ∧ info.presentImage = i) := by
  rcases tick_eq_some h with ⟨_, hlog, _, _⟩ | ⟨s1, steps, steps2, hr, ha, hlog⟩
  · constructor
    · intro g i b fbg j hma _
      rw [hlog] at hma; simp at hma
    · intro info g i b _ hma
      rw [hlog] at hma; simp at hma
  · have hfb1 := rebuildPhase_proceed_fbinv hr hfb
    have hnost : ∀ x ∈ steps, x.isRebuild = true := by
      rcases rebuildPhase_proceed_steps hr with h2 | h2 <;> rw [h2] <;>
        simp [Step.isRebuild]
    rcases acquirePhase_eq_some ha with ⟨_, _, hsteps2⟩ |
      ⟨i', sub, fb, _, hfbget, _, hsteps2⟩
    · constructor
      · intro g i b fbg j hma _
        rw [hlog, hsteps2] at hma
        simp only [List.mem_cons, List.mem_append] at hma
        rcases hma with hma | hma | hma
        · exact Step.noConfusion hma
        · exact Bool.noConfusion (hnost _ hma)
        · simp at hma
      · intro info g i b _ hma
        rw [hlog, hsteps2] at hma
        simp only [List.mem_cons, List.mem_append] at hma
        rcases hma with hma | hma | hma
        · exact Step.noConfusion hma
        · exact Bool.noConfusion (hnost _ hma)
        · simp at hma
    · have hfbgen : fb.image.gen = s1.swapchain.gen :=
        hfb1 fb (List.get?_mem hfbget)
      have hacqeq : ∀ g i b, Step.acquired g i b ∈ log →
          g = s1.swapchain.gen ∧ i = i' := by
        intro g i b hma
        rw [hlog, hsteps2] at hma
        simp only [List.mem_cons, List.mem_append] at hma
        rcases hma with hma | hma | hma
        · exact Step.noConfusion hma
        · exact Bool.noConfusion (hnost _ hma)
        · simp at hma
          exact ⟨hma.1, hma.2.1⟩
      constructor
      · intro g i b fbg j hma hme
        obtain ⟨hg, hi⟩ := hacqeq g i b hma
        rw [hlog, hsteps2] at hme
        simp only [List.mem_cons, List.mem_append] at hme
        rcases hme with hme | hme | hme
        · exact Step.noConfusion hme
        · exact Bool.noConfusion (hnost _ hme)
        · simp at hme
          exact ⟨hme.1.trans (hfbgen.trans hg.symm), hme.2.trans hi.symm⟩
      · intro info g i b hms hma
        obtain ⟨hg, hi⟩ := hacqeq g i b hma
        obtain ⟨_, _, _, _, _, _, _, _, _, hpg, hpi, _⟩ := tick_submitted h hms
        have hdepacq : info.dep.acq = ⟨s1.swapchain.gen, i'⟩ := by
          rw [hlog, hsteps2] at hms
          simp only [List.mem_cons, List.mem_append] at hms
          rcases hms with hms | hms | hms
          · exact Step.noConfusion hms
          · exact Bool.noConfusion (hnost _ hms)
          · simp at hms
            rw [hms]
            exact congrArg Dependency.acq (submitPhase_info _ _ _ _).1
        rw [hpg, hpi, hdepacq, hg, hi]
        exact ⟨rfl, rfl⟩

/-- Run any per-tick log property over a whole event trace, threading the
framebuffer-generation invariant. -/
lemma run_lift (P : List Step → Prop) (hnil : P [])
    (hP : ∀ s inp s' log, tick s inp = some (s', log) → FbInv s → P log) :
    ∀ {evs : List LoopEvent} {s s' : LoopState} {logs : List (List Step)},
      FbInv s → run s evs = some (s', logs) → ∀ log ∈ logs, P log := by
  intro evs
  induction evs with
  | nil =>
    intro s s' logs _ h log hm
    simp only [run, Option.some.injEq, Prod.mk.injEq] at h
    rw [← h.2] at hm
    simp at hm
  | cons ev evs ih =>
    intro s s' logs hfb h log hm
    simp only [run] at h
    split at h
    · exact Option.noConfusion h
    · next s1 log1 hev =>
      split at h
      · exact Option.noConfusion h
      · next s2 logs' hrun =>
        simp only [Option.some.injEq, Prod.mk.injEq] at h
        rw [← h.2] at hm
        have hfb1 : FbInv s1 := handleEvent_fbinv hev hfb
        rcases List.mem_cons.1 hm with rfl | hm'
        · cases ev with
          | redrawEventsCleared inp =>
            simp only [handleEvent] at hev
            exact hP _ _ _ _ hev hfb
          | closeRequested =>
            simp only [handleEvent, Option.some.injEq, Prod.mk.injEq] at hev
            rw [← hev.2]; exact hnil
          | resized w hgt =>
            simp only [handleEvent, Option.some.injEq, Prod.mk.injEq] at hev
            rw [← hev.2]; exact hnil
          | other =>
            simp only [handleEvent, Option.some.injEq, Prod.mk.injEq] at hev
            rw [← hev.2]; exact hnil
        · exact ih hfb1 hrun log hm'

/-- Facts about the startup state built by `init_state`. -/
lemma init_state_spec {mic extra w h : Nat} {s0 : LoopState}
    (hinit : init_state mic extra w h = some s0) :
    s0.recreate_swapchain = false ∧ s0.previous_frame_end = .satisfied ∧
    s0.sub_count = 0 ∧ FbInv s0 ∧
    s0.swapchain = ⟨0, w, h, mic + extra⟩ := by
  unfold init_state at hinit
  split at hinit
  · exact Option.noConfusion hinit
  · next vp fbs hw =>
    simp only [Option.some.injEq] at hinit
    obtain ⟨hfbs, _⟩ := wsds_eq_some hw
    rw [← hinit]
    refine ⟨rfl, rfl, rfl, ?_, rfl⟩
    intro fb hm
    simp only at hm
    rw [hfbs] at hm
    simp only [List.mem_map] at hm
    obtain ⟨i, hi, hfbi⟩ := hm
    have hig := mem_images hi
    rw [← hfbi, hig]
    rfl

/-- Claim C2: for every tick of any event trace started from the startup
state, the render target used when the render pass is begun belongs to the
same swapchain generation as the swapchain the immediately preceding acquire
call returned the image index from (and the encode uses exactly that image
index), and the present call of the same tick goes to that same generation
and index — a stale-generation target is never paired with a newer
swapchain's acquire/present. -/
theorem c2_encode_generation_matches_acquire :
    ∀ (mic extra w h : Nat) (s0 : LoopState) (evs : List LoopEvent)
      (s' : LoopState) (logs : List (List Step)),
      init_state mic extra w h = some s0 →
      run s0 evs = some (s', logs) →
      ∀ log ∈ logs,
        (∀ g i b fbg j, Step.acquired g i b ∈ log →
          Step.encoded fbg j ∈ log → fbg = g ∧ j = i) ∧
        (∀ info g i b, Step.submitted info ∈ log →
          Step.acquired g i b ∈ log →
          info.presentGen = g ∧ info.presentImage = i) := by
  intro mic extra w h s0 evs s' logs hinit hrun
  obtain ⟨_, _, _, hfb, _⟩ := init_state_spec hinit
  exact run_lift _ (by constructor <;> intro _ <;> simp)
    (fun s inp s' log ht hf => tick_gen_coherent ht hf) hfb hrun

/-- Witness for C2 on the concrete one-tick trace from the startup state:
the encode and present of the tick use generation 0, image 0, exactly as
acquired. -/
theorem c2_encode_generation_matches_acquire_witness :
    ((0 : Nat) = 0 ∧ (0 : Nat) = 0) ∧
    infoTick1.presentGen = 0 ∧ infoTick1.presentImage = 0 := by
  have h := c2_encode_generation_matches_acquire 2 0 800 600 initSample
    [.redrawEventsCleared inputFlushOk] sampleSteady [logTick1]
    (by decide) (by decide) logTick1 (by decide)
  exact ⟨h.1 0 0 false 0 0 (by decide) (by decide),
    h.2 infoTick1 0 0 false (by decide) (by decide)⟩

/-! ### Claim C1 -/

lemma subsOf_mem {log : List Step} {info : SubmissionInfo}
    (h : info ∈ subsOf log) : Step.submitted info ∈ log := by
  unfold subsOf at h
  rw [List.mem_filterMap] at h
  obtain ⟨st, hst, hf⟩ := h
  cases st <;> simp at hf
  rwa [hf] at hst

lemma traceSubs_cons (log : List Step) (logs : List (List Step)) :
    traceSubs (log :: logs) = subsOf log ++ traceSubs logs := by
  simp [traceSubs]

/-- Over any event trace, the submissions form a chain: each one's carried
dependency token is exactly the token stored by its immediate predecessor. -/
lemma run_chain : ∀ {evs : List LoopEvent} {s s' : LoopState}
    {logs : List (List Step)},
    run s evs = some (s', logs) →
    chainFrom s.previous_frame_end s.sub_count (traceSubs logs) := by
  intro evs
  induction evs with
  | nil =>
    intro s s' logs h
    simp only [run, Option.some.injEq, Prod.mk.injEq] at h
    rw [← h.2]
    simp [traceSubs, chainFrom]
  | cons ev evs ih =>
    intro s s' logs h
    simp only [run] at h
    split at h
    · exact Option.noConfusion h
    · next s1 log1 hev =>
      split at h
      · exact Option.noConfusion h
      · next s2 logs' hrun =>
        simp only [Option.some.injEq, Prod.mk.injEq] at h
        rw [← h.2, traceSubs_cons]
        cases ev with
        | closeRequested =>
          simp only [handleEvent, Option.some.injEq, Prod.mk.injEq] at hev
          rw [← hev.2]
          simp only [subsOf, List.filterMap_nil, List.nil_append]
          rw [hev.1]
          exact ih hrun
        | other =>
          simp only [handleEvent, Option.some.injEq, Prod.mk.injEq] at hev
          rw [← hev.2]
          simp only [subsOf, List.filterMap_nil, List.nil_append]
          rw [hev.1]
          exact ih hrun
        | resized w hgt =>
          simp only [handleEvent, Option.some.injEq, Prod.mk.injEq] at hev
          rw [← hev.2]
          simp only [subsOf, List.filterMap_nil, List.nil_append]
          have hch := ih hrun
          rw [← hev.1] at hch
          exact hch
        | redrawEventsCleared inp =>
          simp only [handleEvent] at hev
          rcases tick_subsOf hev with ⟨hempty, hprev, hcount⟩ | ⟨info, hone⟩
          · rw [hempty, List.nil_append]
            have hch := ih hrun
            rw [hprev, hcount] at hch
            exact hch
          · rw [hone, List.cons_append, List.nil_append]
            have hm := @subsOf_mem log1 info
              (by rw [hone]; exact List.mem_cons_self _ _)
            obtain ⟨hdep, hid, hfo, htok, hsprev, hscount, _⟩ :=
              tick_submitted hev hm
            refine ⟨hdep, hid, ?_, ?_⟩
            · rw [hfo]
              exact htok
            · have hch := ih hrun
              rw [hsprev, hscount] at hch
              exact hch

/-- Claim C1: over any event trace from the startup state, every submission's
composed dependency is the join of the carried-over CompletionToken with the
acquire token of the same tick, and the chain of carried tokens starts at
the already-satisfied token and each subsequent submission carries exactly
the token stored by the immediately preceding submission (the pending token
of the most recent prior submission on success, satisfied otherwise) — never
a token from two or more submissions back. -/
theorem c1_submission_dependency_chain :
    ∀ (mic extra w h : Nat) (s0 : LoopState) (evs : List LoopEvent)
      (s' : LoopState) (logs : List (List Step)),
      init_state mic extra w h = some s0 →
      run s0 evs = some (s', logs) →
      chainFrom .satisfied 0 (traceSubs logs) ∧
      (∀ log ∈ logs, ∀ info, Step.submitted info ∈ log →
        ∃ b, Step.acquired info.dep.acq.scGen info.dep.acq.image_num b ∈ log) := by
  intro mic extra w h s0 evs s' logs hinit hrun
  obtain ⟨_, hprev, hcount, hfb, _⟩ := init_state_spec hinit
  constructor
  · have hch := run_chain hrun
    rw [hprev, hcount] at hch
    exact hch
  · refine run_lift (fun log => ∀ info, Step.submitted info ∈ log →
      ∃ b, Step.acquired info.dep.acq.scGen info.dep.acq.image_num b ∈ log)
      ?_ ?_ hfb hrun
    · intro info hm
      simp at hm
    · intro s inp st' log ht _ info hm
      obtain ⟨_, _, _, _, _, _, _, _, _, _, _, hacq⟩ := tick_submitted ht hm
      exact hacq

/-- Witness for C1 on the concrete two-tick trace from the startup state. -/
theorem c1_submission_dependency_chain_witness :
    chainFrom .satisfied 0 (traceSubs [logTick1, logTick2]) ∧
    ∃ b, Step.acquired infoTick2.dep.acq.scGen infoTick2.dep.acq.image_num b
      ∈ logTick2 := by
  have h := c1_submission_dependency_chain 2 0 800 600 initSample
    [.redrawEventsCleared inputFlushOk, .redrawEventsCleared inputFlushOk]
    afterTick2 [logTick1, logTick2] (by decide) (by decide)
  exact ⟨h.1, h.2 logTick2 (by decide) infoTick2 (by decide)⟩

/-! ### Claim C9 -/

/-- Claim C9: a resize notification only sets the stale flag (its payload is
ignored; the rebuild dimensions come from the surface's reported
`min_image_extent`); the next tick whose `recreate_with_dimensions` succeeds
installs a swapchain with exactly the queried extent, recomputes the
viewport deterministically to origin 0,0, those dimensions and depth range
0 to 1, and does so before acquiring: the rebuild step is the first step of
the tick after the cleanup. -/
theorem c9_resize_rebuild_updates_viewport :
    (∀ (s : LoopState) (wE hE : Nat),
      handleEvent s (.resized wE hE)
        = some ({ s with recreate_swapchain := true }, [])) ∧
    (∀ (s1 : LoopState) (inp : TickInput) (s2 : LoopState) (log : List Step),
      s1.recreate_swapchain = true → inp.rebuild = .ok →
      tick s1 inp = some (s2, log) →
      s2.swapchain = ⟨s1.swapchain.gen + 1, inp.min_image_extent.1,
        inp.min_image_extent.2, inp.new_num_images⟩ ∧
      s2.viewports = some ⟨0, 0, inp.min_image_extent.1,
        inp.min_image_extent.2, 0, 1⟩ ∧
      ∃ rest, log = Step.cleanup ::
        Step.rebuilt inp.min_image_extent (s1.swapchain.gen + 1) :: rest) := by
  constructor
  · intro s wE hE
    rfl
  · intro s1 inp s2 log hf hok h
    rcases tick_eq_some h with ⟨_, _, _, hu⟩ | ⟨sm, steps, steps2, hr, ha, hlog⟩
    · rw [hok] at hu
      exact RebuildResult.noConfusion hu
    · rcases rebuildPhase_proceed hr with ⟨_, _, hff⟩ |
        ⟨_, _, _, hsteps, _, _, _, hsw, hvp, _⟩
      · rw [hf] at hff
        exact Bool.noConfusion hff
      · obtain ⟨hsw2, hvp2, _⟩ := acquirePhase_preserves ha
        refine ⟨hsw2.trans hsw, hvp2.trans hvp, steps2, ?_⟩
        rw [hlog, hsteps]
        rfl

/-- Witness for C9: a resize of the steady sample state, and the concrete
stale tick rebuilding to 400 by 300 with the recomputed viewport. -/
theorem c9_resize_rebuild_updates_viewport_witness :
    handleEvent sampleSteady (.resized 400 300)
      = some ({ sampleSteady with recreate_swapchain := true }, []) ∧
    afterRebuildOk.swapchain = ⟨1, 400, 300, 2⟩ ∧
    afterRebuildOk.viewports = some ⟨0, 0, 400, 300, 0, 1⟩ ∧
    ∃ rest, logRebuildOk = Step.cleanup :: Step.rebuilt (400, 300) 1 :: rest := by
  refine ⟨c9_resize_rebuild_updates_viewport.1 sampleSteady 400 300, ?_⟩
  exact c9_resize_rebuild_updates_viewport.2 sampleStale inputRebuildOk
    afterRebuildOk logRebuildOk rfl rfl (by decide)

/-! ### Claim C10 -/

lemma wsds_images_isSome {sc : SwapchainState} (h : 1 ≤ sc.num_images) :
    (window_size_dependent_setup sc.images).isSome = true := by
  obtain ⟨m, hm⟩ : ∃ m, sc.num_images = m + 1 := ⟨sc.num_images - 1, by omega⟩
  simp [SwapchainState.images, hm, List.range_succ_eq_map,
    window_size_dependent_setup]

/-- Claim C10: `window_size_dependent_setup` indexes `images[0]`
unconditionally, so the empty image list is a panic (`none`) — a non-empty
list is its precondition; every image list coming out of swapchain creation
satisfies it because the swapchain is created with at least the surface's
minimum image count, which is at least one; likewise the conditional-rebuild
step never reaches that panic when the rebuilt swapchain has at least one
image. -/
theorem c10_setup_requires_nonempty_images :
    window_size_dependent_setup [] = none ∧
    (∀ (mic extra w h : Nat), 1 ≤ mic →
      (window_size_dependent_setup (create_swapchain mic extra w h).2).isSome
        = true) ∧
    (∀ (s : LoopState) (inp : TickInput),
      inp.rebuild ≠ .fatal → 1 ≤ inp.new_num_images →
      rebuildPhase s inp ≠ .panicked) := by
  refine ⟨rfl, ?_, ?_⟩
  · intro mic extra w h hm
    exact @wsds_images_isSome ⟨0, w, h, mic + extra⟩ (by simp; omega)
  · intro s inp hnf hn h
    by_cases hf : s.recreate_swapchain
    · cases hr : inp.rebuild with
      | fatal => exact hnf hr
      | unsupportedDimensions =>
        rw [rebuildPhase_unsupported hf hr] at h
        exact RebuildPhaseResult.noConfusion h
      | ok =>
        have hs := @wsds_images_isSome ⟨s.swapchain.gen + 1,
          inp.min_image_extent.1, inp.min_image_extent.2,
          inp.new_num_images⟩ hn
        rw [Option.isSome_iff_exists] at hs
        obtain ⟨⟨vp, fbs⟩, hp⟩ := hs
        simp [rebuildPhase, hf, hr, hp] at h
    · simp only [Bool.not_eq_true] at hf
      rw [rebuildPhase_not_stale inp hf] at h
      exact RebuildPhaseResult.noConfusion h

/-- Witness for C10: a concrete creation with minimum image count 1 yields a
usable image list, and the concrete stale rebuild tick does not panic. -/
theorem c10_setup_requires_nonempty_images_witness :
    (window_size_dependent_setup (create_swapchain 1 1 800 600).2).isSome
      = true ∧
    rebuildPhase sampleStale inputRebuildOk ≠ .panicked :=
  ⟨c10_setup_requires_nonempty_images.2.1 1 1 800 600 (by decide),
   c10_setup_requires_nonempty_images.2.2 sampleStale inputRebuildOk
     (by decide) (by decide)⟩

end VulkanSandbox
